import Mathlib

/-!
Shallow embedding of the CFS-like multi-core scheduler in
`src/task_scheduler.c` (task states, weights, hierarchical task groups with
bandwidth control, per-core run queues, `update_curr_advanced`,
`check_group_runtime`, `update_group_runtime`, `should_preempt`,
`load_balance`, `schedule`), together with a spec-side model of the
`group_has_budget` walk for comparison.

Modeling conventions:
* All C `unsigned long long` / `unsigned long` arithmetic is on `Nat`
  reduced mod 2^64 (`wrap`, `sub64`) exactly where the C code can wrap.
* Heap objects are stored in arena lists indexed by stable ids
  (`tasks : List CTask`, `groups : List TaskGroup`, `rqs : List CpuRq`);
  pointer mutation becomes functional update of the arena.
* The `task_group.parent` pointer chain walked by `check_group_runtime`
  and `update_group_runtime` is represented by the per-task field
  `groupChain : List Nat` listing the owning group id followed by its
  ancestors up to the root (the walk order of the C `while (group)` loop).
* The ordered index `cpu_rq.tasks_timeline` (an rb-tree; `linux/rbtree.h`
  is external to the repository) is modeled as the list of task ids
  reachable from the tree root, leftmost first: `rb_first` is the head
  and `rb_erase` removes the id.  The insertion the scheduler actually
  performs, `rb_link_node(&node, NULL, &root->rb_node)` followed by
  `rb_insert_color`, does no descent: it writes the new node straight
  into the root pointer (`*rb_link = node`, both children NULL), making
  every task previously in that tree unreachable — so the modeled index
  after an insertion is exactly the singleton of the inserted task
  (`rbInsert`).  Other files of this repository use the correct
  walk-then-link idiom; `task_scheduler.c` does not.
* Every `ktime_get_ns()` read inside one scheduler invocation is modeled
  as the single instant `now` passed to that invocation; locks are
  dropped (each embedded operation is one critical section).
-/

/-- 2^64, the modulus of the C `unsigned long long` arithmetic. -/
def U64 : Nat := 18446744073709551616

/-- Reduce a `Nat` to the value the corresponding u64 expression has in C. -/
def wrap (a : Nat) : Nat := a % U64

/-- C u64 subtraction `a - b` (wraps around on underflow). -/
def sub64 (a b : Nat) : Nat := (a + U64 - b % U64) % U64

-- Task states (task_scheduler.c lines 18-21)
def TASK_RUNNING : Nat := 0
def TASK_READY : Nat := 1
def TASK_BLOCKED : Nat := 2
def TASK_TERMINATED : Nat := 3

/-- `NICE_TO_WEIGHT(nice)` = `(nice) + 20` (task_scheduler.c line 27). -/
def NICE_TO_WEIGHT (nice : Int) : Int := nice + 20

/-- The weight at niceness 0, `NICE_TO_WEIGHT(0)`: the normalization
constant used everywhere virtual runtime is scaled. -/
def BASE_WEIGHT : Nat := 20

def MIN_GRANULARITY : Nat := 1000000
def FAIR_LATENCY : Nat := 6000000
def MAX_CPU_CAPACITY : Nat := 1024
def BANDWIDTH_PERIOD : Nat := 100000000
def DEFAULT_GROUP_QUOTA : Nat := 70

/-- `ULONG_MAX` on the 64-bit target. -/
def ULONG_MAX : Nat := 18446744073709551615

/-- `struct custom_task` (task_scheduler.c lines 39-53).  The rb-node and
list plumbing is implicit in the run-queue lists; `group` plus the parent
pointers of the groups become `groupChain`. -/
structure CTask where
  pid : Nat
  state : Nat
  nice : Int
  weight : Nat
  vruntime : Nat
  exec_start : Nat
  sum_exec_runtime : Nat
  groupChain : List Nat
  cpu : Int
  deadline : Nat
  runtime_left : Nat
deriving Repr, DecidableEq

instance : Inhabited CTask :=
  ⟨{ pid := 0, state := TASK_READY, nice := 0, weight := BASE_WEIGHT,
     vruntime := 0, exec_start := 0, sum_exec_runtime := 0, groupChain := [],
     cpu := -1, deadline := 0, runtime_left := 0 }⟩

/-- The owning group id: `task->group`. -/
def CTask.group (t : CTask) : Nat := t.groupChain.headD 0

/-- `struct task_group` (task_scheduler.c lines 56-68): the fields read or
written by the scheduler functions.  The `parent` pointer is represented
by the tasks' `groupChain`; `tasks_tree`, `children`, `siblings`, the lock
and `cpu_preferred` are never consulted by the embedded operations. -/
structure TaskGroup where
  weight : Nat
  vruntime : Nat
  quota : Nat
  runtime : Nat
  period : Nat
deriving Repr, DecidableEq

instance : Inhabited TaskGroup :=
  ⟨{ weight := BASE_WEIGHT, vruntime := 0,
     quota := BANDWIDTH_PERIOD * DEFAULT_GROUP_QUOTA / 100,
     runtime := 0, period := BANDWIDTH_PERIOD }⟩

/-- `struct cpu_rq` (task_scheduler.c lines 71-81). -/
structure CpuRq where
  tasks_timeline : List Nat
  nr_running : Nat
  cpu_load : Nat
  cpu : Nat
  curr : Option Nat
  min_vruntime : Nat
  capacity : Nat
deriving Repr, DecidableEq

instance : Inhabited CpuRq :=
  ⟨{ tasks_timeline := [], nr_running := 0, cpu_load := 0, cpu := 0,
     curr := none, min_vruntime := 0, capacity := MAX_CPU_CAPACITY }⟩

/-- The global scheduler state: the task arena, the group arena and the
per-cpu run-queue array `cpu_rqs`. -/
structure SchedState where
  tasks : List CTask
  groups : List TaskGroup
  rqs : List CpuRq
deriving Repr, DecidableEq

/-- Arena read (dereference of a stored id). -/
def lget [Inhabited α] (l : List α) (i : Nat) : α := l.getD i default

/-- Arena write (in-place mutation through a pointer). -/
def lset (l : List α) (i : Nat) (a : α) : List α := l.set i a

def getTask (s : SchedState) (i : Nat) : CTask := lget s.tasks i

def setTask (s : SchedState) (i : Nat) (t : CTask) : SchedState :=
  { s with tasks := lset s.tasks i t }

def getGroup (gs : List TaskGroup) (i : Nat) : TaskGroup := lget gs i

def getRq (s : SchedState) (c : Nat) : CpuRq := lget s.rqs c

def setRq (s : SchedState) (c : Nat) (rq : CpuRq) : SchedState :=
  { s with rqs := lset s.rqs c rq }

def setGroups (s : SchedState) (gs : List TaskGroup) : SchedState :=
  { s with groups := gs }

theorem length_lset (l : List α) (i : Nat) (a : α) :
    (lset l i a).length = l.length := by
  simp [lset]

theorem lget_lset_eq [Inhabited α] (l : List α) (i : Nat) (a : α)
    (h : i < l.length) : lget (lset l i a) i = a := by
  induction l generalizing i with
  | nil => simp at h
  | cons x xs ih =>
    cases i with
    | zero => simp [lget, lset]
    | succ j =>
      simp only [lget, lset, List.set_cons_succ, List.getD_cons_succ]
      exact ih j (Nat.lt_of_succ_lt_succ h)

theorem lget_lset_ne [Inhabited α] (l : List α) (i j : Nat) (a : α)
    (h : i ≠ j) : lget (lset l i a) j = lget l j := by
  induction l generalizing i j with
  | nil => simp [lget, lset]
  | cons x xs ih =>
    cases i with
    | zero =>
      cases j with
      | zero => exact absurd rfl h
      | succ k => simp [lget, lset]
    | succ i' =>
      cases j with
      | zero => simp [lget, lset]
      | succ k =>
        simp only [lget, lset, List.set_cons_succ, List.getD_cons_succ]
        exact ih i' k (fun hh => h (by rw [hh]))

@[simp]
theorem getRq_setTask (s : SchedState) (i : Nat) (t : CTask) (c : Nat) :
    getRq (setTask s i t) c = getRq s c := rfl

@[simp]
theorem getRq_setGroups (s : SchedState) (gs : List TaskGroup) (c : Nat) :
    getRq (setGroups s gs) c = getRq s c := rfl

@[simp]
theorem getTask_setGroups (s : SchedState) (gs : List TaskGroup) (i : Nat) :
    getTask (setGroups s gs) i = getTask s i := rfl

@[simp]
theorem getTask_setRq (s : SchedState) (c : Nat) (rq : CpuRq) (i : Nat) :
    getTask (setRq s c rq) i = getTask s i := rfl

@[simp]
theorem groups_setGroups (s : SchedState) (gs : List TaskGroup) :
    (setGroups s gs).groups = gs := rfl

@[simp]
theorem groups_setTask (s : SchedState) (i : Nat) (t : CTask) :
    (setTask s i t).groups = s.groups := rfl

@[simp]
theorem groups_setRq (s : SchedState) (c : Nat) (rq : CpuRq) :
    (setRq s c rq).groups = s.groups := rfl

@[simp]
theorem tasks_setGroups (s : SchedState) (gs : List TaskGroup) :
    (setGroups s gs).tasks = s.tasks := rfl

@[simp]
theorem tasks_setRq (s : SchedState) (c : Nat) (rq : CpuRq) :
    (setRq s c rq).tasks = s.tasks := rfl

@[simp]
theorem rqs_setTask (s : SchedState) (i : Nat) (t : CTask) :
    (setTask s i t).rqs = s.rqs := rfl

@[simp]
theorem rqs_setGroups (s : SchedState) (gs : List TaskGroup) :
    (setGroups s gs).rqs = s.rqs := rfl

@[simp]
theorem tasks_length_setTask (s : SchedState) (i : Nat) (t : CTask) :
    (setTask s i t).tasks.length = s.tasks.length := by
  simp [setTask, length_lset]

theorem getTask_setTask_self (s : SchedState) (i : Nat) (t : CTask)
    (h : i < s.tasks.length) : getTask (setTask s i t) i = t :=
  lget_lset_eq _ _ _ h

theorem getTask_setTask_ne (s : SchedState) (i j : Nat) (t : CTask)
    (h : i ≠ j) : getTask (setTask s i t) j = getTask s j :=
  lget_lset_ne _ _ _ _ h

theorem getRq_setRq_self (s : SchedState) (c : Nat) (rq : CpuRq)
    (h : c < s.rqs.length) : getRq (setRq s c rq) c = rq :=
  lget_lset_eq _ _ _ h

theorem getRq_setRq_ne (s : SchedState) (c c' : Nat) (rq : CpuRq)
    (h : c ≠ c') : getRq (setRq s c rq) c' = getRq s c' :=
  lget_lset_ne _ _ _ _ h

/-! ## Scheduler operations (task_scheduler.c) -/

/-- `calc_cpu_load` (lines 134-136): `rq->nr_running * NICE_TO_WEIGHT(0)`. -/
def calc_cpu_load (rq : CpuRq) : Nat := wrap (rq.nr_running * BASE_WEIGHT)

/-- One iteration of the `find_busiest_cpu` scan (lines 139-151): keep the
accumulator `(busiest_cpu, max_load)` unless `load > max_load`. -/
def busiestStep (s : SchedState) (acc : Nat × Nat) (cpu : Nat) : Nat × Nat :=
  let load := calc_cpu_load (getRq s cpu)
  if acc.2 < load then (cpu, load) else acc

/-- `find_busiest_cpu` (lines 139-151): linear scan over all cpus starting
from `busiest_cpu = 0`, `max_load = 0`. -/
def find_busiest_cpu (s : SchedState) : Nat :=
  ((List.range s.rqs.length).foldl (busiestStep s) (0, 0)).1

/-- One iteration of the `find_idlest_cpu` scan (lines 154-166). -/
def idlestStep (s : SchedState) (acc : Nat × Nat) (cpu : Nat) : Nat × Nat :=
  let load := calc_cpu_load (getRq s cpu)
  if load < acc.2 then (cpu, load) else acc

/-- `find_idlest_cpu` (lines 154-166): linear scan starting from
`idlest_cpu = 0`, `min_load = ULONG_MAX`. -/
def find_idlest_cpu (s : SchedState) : Nat :=
  ((List.range s.rqs.length).foldl (idlestStep s) (0, ULONG_MAX)).1

/-- `check_group_runtime` (lines 169-190), recursing over the chain of
group ids from `task->group` up to the root.  At each ancestor: if
`now - group->runtime >= group->period` (u64 subtraction) the period is
reset (`runtime = 0`); then if `runtime >= quota` the walk stops with
`has_runtime = false`.  Returns the result and the mutated group arena. -/
def check_group_runtime (now : Nat) : List Nat → List TaskGroup → Bool × List TaskGroup
  | [], gs => (true, gs)
  | g :: rest, gs =>
    let grp := getGroup gs g
    let grp := if sub64 now grp.runtime ≥ grp.period then { grp with runtime := 0 } else grp
    let gs := lset gs g grp
    if grp.runtime ≥ grp.quota then (false, gs)
    else check_group_runtime now rest gs

/-- `update_group_runtime` (lines 193-203): walk from `task->group` to the
root adding `delta` to each ancestor's `runtime` and `vruntime`. -/
def update_group_runtime (delta : Nat) : List Nat → List TaskGroup → List TaskGroup
  | [], gs => gs
  | g :: rest, gs =>
    let grp := getGroup gs g
    update_group_runtime delta rest
      (lset gs g { grp with runtime := wrap (grp.runtime + delta),
                            vruntime := wrap (grp.vruntime + delta) })

/-- The timeline insertion as `task_scheduler.c` performs it (lines
235-236, 308-309, 400-401): `rb_link_node(&task->node, NULL,
&root->rb_node)` stores the new node directly in the tree's root pointer
with no descent and no parent, and `rb_insert_color` then merely colors
the parentless node black.  The new node's children are NULL, so every
task previously in the tree becomes unreachable: the resulting index is
the singleton holding the inserted task. -/
def rbInsert (i : Nat) (old_timeline : List Nat) : List Nat :=
  [i]

/-- `load_balance` (lines 206-243): find the busiest and the idlest cpu;
if they differ, move the leftmost task of the busiest timeline to the
idlest timeline, adjusting both `nr_running` counters and the task's
`cpu` field. -/
def load_balance (s : SchedState) : SchedState :=
  let busiest_cpu := find_busiest_cpu s
  let idlest_cpu := find_idlest_cpu s
  if busiest_cpu = idlest_cpu then s
  else
    let busiest := getRq s busiest_cpu
    match busiest.tasks_timeline.head? with
    | none => s
    | some tid =>
      let s := setRq s busiest_cpu
        { busiest with tasks_timeline := busiest.tasks_timeline.erase tid,
                       nr_running := sub64 busiest.nr_running 1 }
      let t := getTask s tid
      let s := setTask s tid { t with cpu := Int.ofNat idlest_cpu }
      let idlest := getRq s idlest_cpu
      setRq s idlest_cpu
        { idlest with tasks_timeline := rbInsert tid idlest.tasks_timeline,
                      nr_running := wrap (idlest.nr_running + 1) }

/-- `should_preempt` (lines 246-263).  Takes the id of the current task
(if any) and of the candidate; returns the verdict together with the
state as mutated by the lazily-resetting `check_group_runtime` calls
(which short-circuit exactly as the C `&&` does). -/
def should_preempt (now : Nat) (curr : Option Nat) (nid : Nat) (s : SchedState) :
    Bool × SchedState :=
  match curr with
  | none => (true, s)
  | some c =>
    let ct := getTask s c
    let nt := getTask s nid
    let chk1 := check_group_runtime now ct.groupChain s.groups
    let s1 : SchedState := setGroups s chk1.2
    let bres : Bool × SchedState :=
      if chk1.1 = true then (false, s1)
      else
        let chk2 := check_group_runtime now nt.groupChain s1.groups
        (chk2.1, setGroups s1 chk2.2)
    if bres.1 = true then (true, bres.2)
    else if wrap (nt.vruntime + FAIR_LATENCY) < ct.vruntime then (true, bres.2)
    else if nt.deadline ≠ 0 ∧ ct.deadline ≠ 0 ∧ nt.deadline < ct.deadline then (true, bres.2)
    else (false, bres.2)

/-- The task-field writes of `update_curr_advanced` (lines 273-288):
`delta_exec = now - exec_start` is added to `sum_exec_runtime`, the
per-task bandwidth window is consumed (or zeroed with the deadline pushed
a full period out), and the vruntime advances by
`delta_exec * NICE_TO_WEIGHT(0) / weight`. -/
def account_task (now : Nat) (t : CTask) : CTask :=
  let delta := sub64 now t.exec_start
  let t := { t with sum_exec_runtime := wrap (t.sum_exec_runtime + delta) }
  let t :=
    if t.runtime_left ≤ delta then
      { t with runtime_left := 0, deadline := wrap (now + BANDWIDTH_PERIOD) }
    else
      { t with runtime_left := t.runtime_left - delta }
  { t with vruntime := wrap (t.vruntime + wrap (delta * BASE_WEIGHT) / t.weight) }

/-- `update_curr_advanced` (lines 266-291): a no-op when `exec_start` is
0; otherwise propagate the elapsed time into the group hierarchy
(`update_group_runtime`), rewrite the task's accounting fields
(`account_task`) and fold the new vruntime into `rq->min_vruntime`. -/
def update_curr_advanced (now tid cpu : Nat) (s : SchedState) : SchedState :=
  let t := getTask s tid
  if t.exec_start = 0 then s
  else
    let s := setGroups s (update_group_runtime (sub64 now t.exec_start) t.groupChain s.groups)
    let t := account_task now t
    let s := setTask s tid t
    let rq := getRq s cpu
    if t.vruntime < rq.min_vruntime then
      setRq s cpu { rq with min_vruntime := t.vruntime }
    else s

/-! ## The main scheduling function `schedule` (lines 294-355) -/

/-- Step 1 of `schedule`: if there is a current task, account it and — if
it is still marked Running — mark it Ready and insert it into the
timeline. -/
def sched_requeue_prev (cpu now : Nat) (s : SchedState) : SchedState :=
  match (getRq s cpu).curr with
  | none => s
  | some p =>
    let s := update_curr_advanced now p cpu s
    let pt := getTask s p
    if pt.state = TASK_RUNNING then
      let s := setTask s p { pt with state := TASK_READY }
      let rq := getRq s cpu
      setRq s cpu { rq with tasks_timeline := rbInsert p rq.tasks_timeline }
    else s

/-- Steps 2-3 of `schedule`: pick the leftmost task; if there is none or
`nr_running > capacity / NICE_TO_WEIGHT(0)`, run `load_balance` once and
re-read the leftmost task. -/
def sched_pick_next (cpu : Nat) (s : SchedState) : SchedState × Option Nat :=
  let rq := getRq s cpu
  let next := rq.tasks_timeline.head?
  if next.isNone ∨ rq.nr_running > rq.capacity / BASE_WEIGHT then
    let s := load_balance s
    (s, (getRq s cpu).tasks_timeline.head?)
  else (s, next)

/-- Step 6 of `schedule` (lines 337-349): dispatch `next` — remove it from
the timeline, stamp `exec_start`, mark it Running, rearm its bandwidth
window if `now >= deadline`, publish it as `rq->curr` and set
`rq->nr_running` to 1 or 0 according to whether the timeline is still
non-empty. -/
def sched_dispatch (cpu now n : Nat) (s : SchedState) : SchedState :=
  let rq := getRq s cpu
  let s := setRq s cpu { rq with tasks_timeline := rq.tasks_timeline.erase n }
  let nt := getTask s n
  let nt := { nt with exec_start := now, state := TASK_RUNNING }
  let nt :=
    if now ≥ nt.deadline then
      { nt with runtime_left := wrap ((getGroup s.groups nt.group).quota * BANDWIDTH_PERIOD) / 100,
                deadline := wrap (now + BANDWIDTH_PERIOD) }
    else nt
  let s := setTask s n nt
  let rq2 := getRq s cpu
  setRq s cpu { rq2 with curr := some n,
                         nr_running := if rq2.tasks_timeline = [] then 0 else 1 }

/-- `schedule` (lines 294-355), instrumented to also report which task id
was dispatched (`none` when the function returns without dispatching). -/
def scheduleD (cpu now : Nat) (s : SchedState) : SchedState × Option Nat :=
  let prev := (getRq s cpu).curr
  let s1 := sched_requeue_prev cpu now s
  let pick := sched_pick_next cpu s1
  match pick.2 with
  | none => (pick.1, none)
  | some n =>
    let pr := should_preempt now prev n pick.1
    if pr.1 = true then (sched_dispatch cpu now n pr.2, some n)
    else (pr.2, none)

/-- `schedule` (lines 294-355): the state transformer. -/
def schedule (cpu now : Nat) (s : SchedState) : SchedState := (scheduleD cpu now s).1

/-! ## Driving the scheduler loop: `tick`-style iteration

`simSteps f b n a` applies `f (b+1)`, `f (b+2)`, …, `f (b+n)` in order:
the scheduler invoked once per quantum, the `k`-th invocation happening
at instant `k * quantum`. -/

def simSteps (f : Nat → α → α) : Nat → Nat → α → α
  | _, 0, a => a
  | b, n + 1, a => simSteps f (b + 1) n (f (b + 1) a)

theorem simSteps_append (f : Nat → α → α) (m : Nat) :
    ∀ (b n : Nat) (a : α),
      simSteps f b (m + n) a = simSteps f (b + m) n (simSteps f b m a) := by
  induction m with
  | zero => intro b n a; simp [simSteps, Nat.zero_add]
  | succ m ih =>
    intro b n a
    rw [Nat.succ_add]
    show simSteps f (b + 1) (m + n) (f (b + 1) a) = _
    rw [ih, Nat.add_right_comm b 1 m]
    rfl

/-- The single always-ready entity of the bandwidth-cap scenario: one task
of weight `NICE_TO_WEIGHT(0)`, created at instant 0 exactly as
`create_task` initializes it (Ready, zero vruntime and `exec_start`,
`deadline = 0 + BANDWIDTH_PERIOD`,
`runtime_left = group->quota * BANDWIDTH_PERIOD / 100`). -/
def c5_task : CTask :=
  { pid := 1, state := TASK_READY, nice := 0, weight := BASE_WEIGHT,
    vruntime := 0, exec_start := 0, sum_exec_runtime := 0, groupChain := [0],
    cpu := 0, deadline := BANDWIDTH_PERIOD,
    runtime_left := wrap (70000000 * BANDWIDTH_PERIOD) / 100 }

/-- A root group with `period = P = BANDWIDTH_PERIOD` and `quota = 0.7 P`. -/
def c5_group : TaskGroup :=
  { weight := BASE_WEIGHT, vruntime := 0, quota := 70000000, runtime := 0,
    period := BANDWIDTH_PERIOD }

/-- One freshly initialized core holding the single entity. -/
def c5_state : SchedState :=
  { tasks := [c5_task], groups := [c5_group],
    rqs := [{ tasks_timeline := [0], nr_running := 1, cpu_load := 0, cpu := 0,
              curr := none, min_vruntime := 0, capacity := MAX_CPU_CAPACITY }] }

/-- One scheduling quantum of the bandwidth-cap scenario: the `k`-th
scheduler invocation on core 0 at instant `k * MIN_GRANULARITY` (a 1 ms
tick). -/
def c5_tick (k : Nat) (s : SchedState) : SchedState :=
  schedule 0 (k * MIN_GRANULARITY) s

def c5_run (n : Nat) : SchedState := simSteps c5_tick 0 n c5_state

/-- The group of the proportional-share scenario: effectively
unconstrained bandwidth (a quota of 10^14 ns, far beyond what the run can
accumulate). -/
def c2_group : TaskGroup :=
  { weight := BASE_WEIGHT, vruntime := 0, quota := 100000000000000,
    runtime := 0, period := BANDWIDTH_PERIOD }

/-- An always-ready entity of the proportional-share scenario with the
given pid and weight, created at instant 0 as `create_task` initializes
it. -/
def c2_entity (pid weight : Nat) : CTask :=
  { pid := pid, state := TASK_READY, nice := 0, weight := weight,
    vruntime := 0, exec_start := 0, sum_exec_runtime := 0, groupChain := [0],
    cpu := 0, deadline := BANDWIDTH_PERIOD,
    runtime_left := wrap (c2_group.quota * BANDWIDTH_PERIOD) / 100 }

/-- Two always-ready entities with weights 1024 and 335 in the same
unconstrained group on one core. -/
def c2_state : SchedState :=
  { tasks := [c2_entity 1 1024, c2_entity 2 335], groups := [c2_group],
    rqs := [{ tasks_timeline := [0, 1], nr_running := 2, cpu_load := 0,
              cpu := 0, curr := none, min_vruntime := 0,
              capacity := MAX_CPU_CAPACITY }] }

/-- One quantum of the proportional-share run: the `k`-th scheduler
invocation at instant `k * MIN_GRANULARITY`, counting the quanta in which
entity 1 (task id 0, weight 1024) ends up as the running task. -/
def c2_tick (k : Nat) (p : SchedState × Nat) : SchedState × Nat :=
  let s := schedule 0 (k * MIN_GRANULARITY) p.1
  (s, p.2 + if (getRq s 0).curr = some 0 then 1 else 0)

/-- Run the proportional-share scenario for `n` equal quanta; `.2` is the
number of quanta dispatched to entity 1. -/
def c2_run (n : Nat) : SchedState × Nat := simSteps c2_tick 0 n (c2_state, 0)

/-! ## Spec-side model of the bandwidth-budget walk (§4.3 of the spec) -/

/-- The spec's Bandwidth Control record: `period`, `quota`, `runtime`,
`deadline` (absolute end of the current window). -/
structure BwGroup where
  period : Nat
  quota : Nat
  runtime : Nat
  deadline : Nat
deriving Repr, DecidableEq

instance : Inhabited BwGroup :=
  ⟨{ period := BANDWIDTH_PERIOD,
     quota := BANDWIDTH_PERIOD * DEFAULT_GROUP_QUOTA / 100, runtime := 0,
     deadline := 0 }⟩

/-- The `group_has_budget` walk exactly as §4.3 of the spec words it (for
comparison with `check_group_runtime`): walk from the group to the root;
at each ancestor, if `now >= ancestor.bandwidth.deadline`, reset
(`runtime = 0`, `deadline = now + period`); if any ancestor's
`runtime >= quota`, return false. -/
def group_has_budget_spec (now : Nat) : List Nat → List BwGroup → Bool × List BwGroup
  | [], gs => (true, gs)
  | g :: rest, gs =>
    let bw := lget gs g
    let bw := if now ≥ bw.deadline then { bw with runtime := 0, deadline := now + bw.period } else bw
    let gs := lset gs g bw
    if bw.runtime ≥ bw.quota then (false, gs)
    else group_has_budget_spec now rest gs

/-! ## C1 -/

/-- A core in a perfectly consistent configuration: task 0 is Running and
is the core's `curr` (dispatched at instant 10^6), task 1 is Ready and is
the sole member of the ordered index. -/
def c1_state : SchedState :=
  { tasks :=
      [{ pid := 1, state := TASK_RUNNING, nice := 0, weight := BASE_WEIGHT,
         vruntime := 0, exec_start := 1000000, sum_exec_runtime := 0,
         groupChain := [0], cpu := 0, deadline := BANDWIDTH_PERIOD,
         runtime_left := wrap (70000000 * BANDWIDTH_PERIOD) / 100 },
       { pid := 2, state := TASK_READY, nice := 0, weight := BASE_WEIGHT,
         vruntime := 0, exec_start := 0, sum_exec_runtime := 0,
         groupChain := [0], cpu := 0, deadline := BANDWIDTH_PERIOD,
         runtime_left := wrap (70000000 * BANDWIDTH_PERIOD) / 100 }],
    groups := [c5_group],
    rqs := [{ tasks_timeline := [1], nr_running := 1, cpu_load := 0, cpu := 0,
              curr := some 0, min_vruntime := 0, capacity := MAX_CPU_CAPACITY }] }

/-- C1: the claimed rollback does not exist in `schedule`.  Starting from
the consistent state `c1_state`, one scheduler invocation whose preemption
gate returns false (task 1's vruntime is within `FAIR_LATENCY` of task 0's
and neither bandwidth condition fires) leaves task 0 simultaneously as the
core's running task (`curr = some 0`) and as a member of the ordered
index, still marked Ready — the double-booked configuration the claim
says the loop rolls back. -/
theorem c1_no_preempt_double_books :
    (getRq (schedule 0 2000000 c1_state) 0).curr = some 0 ∧
    0 ∈ (getRq (schedule 0 2000000 c1_state) 0).tasks_timeline ∧
    (getTask (schedule 0 2000000 c1_state) 0).state = TASK_READY := by
  decide

/-! ## C4 -/

/-- C4: `check_group_runtime` does not implement the deadline-based walk
the claim describes.  On a single root group with `runtime = 50`,
`quota = 40`, `period = 100`, observed at `now = 200` inside a current
window ending at `deadline = 300`: the claimed (spec §4.3) walk performs
no reset (`now < deadline`) and reports the group out of budget
(`50 >= 40`), while `check_group_runtime` resets because
`now - runtime >= period` (`200 - 50 >= 100`) — a timestamp-minus-duration
comparison against a field that has no deadline at all — and reports spare
budget. -/
theorem c4_reset_condition_diverges_from_spec :
    (check_group_runtime 200 [0]
        [{ weight := BASE_WEIGHT, vruntime := 0, quota := 40, runtime := 50,
           period := 100 }]).1 = true ∧
    (group_has_budget_spec 200 [0]
        [{ period := 100, quota := 40, runtime := 50, deadline := 300 }]).1 = false := by
  decide

/-! ## C5 -/

set_option maxRecDepth 40000 in
/-- C5: the bandwidth cap is not enforced within quota plus one quantum.
Driving the single always-ready entity of `c5_state` (group quota
`0.7 * P = 7*10^7` ns, period `P = 10^8` ns) through 73 one-millisecond
scheduling quanta leaves the group's accumulated `runtime` at
`72*10^6` ns, already beyond quota plus one quantum (`71*10^6` ns) — the
accounting keeps charging the stale interval since `exec_start` on every
invocation, so the overshoot grows without bound instead of being capped. -/
theorem c5_group_runtime_exceeds_quota_plus_quantum :
    (getGroup (c5_run 73).groups 0).runtime = 72000000 ∧
    c5_group.quota + MIN_GRANULARITY < (getGroup (c5_run 73).groups 0).runtime := by
  decide

/-! ## C8 -/

/-- C8 counterexample: the weight table is not monotonically decreasing.
Niceness -1 is below niceness 0, both in range, yet
`NICE_TO_WEIGHT(-1) = 19` is strictly below `NICE_TO_WEIGHT(0) = 20`. -/
theorem c8_weight_not_decreasing :
    (-20 : Int) ≤ -1 ∧ (-1 : Int) < 0 ∧ (0 : Int) ≤ 19 ∧
    ¬ (NICE_TO_WEIGHT (-1) ≥ NICE_TO_WEIGHT 0) := by
  decide

/-- C8 as amended: over the niceness range [-20, 19] the weight table
`NICE_TO_WEIGHT(nice) = nice + 20` is monotonically *increasing* (more
negative niceness yields a *smaller* weight), and the weight at
niceness 0 is `BASE_WEIGHT`. -/
theorem c8_weight_monotone_increasing (n1 n2 : Int)
    (h1 : -20 ≤ n1) (h2 : n1 < n2) (h3 : n2 ≤ 19) :
    NICE_TO_WEIGHT n1 < NICE_TO_WEIGHT n2 ∧ NICE_TO_WEIGHT 0 = (BASE_WEIGHT : Int) := by
  refine ⟨?_, by decide⟩
  simp only [NICE_TO_WEIGHT]
  omega

/-- C8 witness: the amended monotonicity at niceness -5 < 3. -/
theorem c8_weight_monotone_increasing_witness :
    (-20 : Int) ≤ -5 ∧ (-5 : Int) < 3 ∧ (3 : Int) ≤ 19 ∧
    (NICE_TO_WEIGHT (-5) < NICE_TO_WEIGHT 3 ∧ NICE_TO_WEIGHT 0 = (BASE_WEIGHT : Int)) :=
  ⟨by decide, by decide, by decide,
   c8_weight_monotone_increasing (-5) 3 (by decide) (by decide) (by decide)⟩

/-! ## C9 -/

/-- A consistent single-core state whose run queue floor is 100 while the
running task's vruntime is still 0: exactly what arises when entities are
created with `vruntime = 0` on a queue whose floor has moved up. -/
def c9_state : SchedState :=
  { tasks :=
      [{ pid := 1, state := TASK_RUNNING, nice := 0, weight := BASE_WEIGHT,
         vruntime := 0, exec_start := 5, sum_exec_runtime := 0,
         groupChain := [0], cpu := 0, deadline := BANDWIDTH_PERIOD,
         runtime_left := 70000000 }],
    groups := [c5_group],
    rqs := [{ tasks_timeline := [], nr_running := 0, cpu_load := 0, cpu := 0,
              curr := some 0, min_vruntime := 100, capacity := MAX_CPU_CAPACITY }] }

/-- C9 counterexample: `min_vruntime` is not a non-decreasing floor.  One
accounting step (`update_curr_advanced`) on `c9_state` at `now = 6`
advances the task's vruntime to 1 and *lowers* the queue's
`min_vruntime` from 100 to 1. -/
theorem c9_min_vruntime_decreases :
    (getRq (update_curr_advanced 6 0 0 c9_state) 0).min_vruntime <
      (getRq c9_state 0).min_vruntime := by
  decide

/-- C9 as amended: `update_curr_advanced` folds the task's updated
vruntime into the floor with `min`, so `min_vruntime` never *increases*
across an accounting step — it stays put or decreases (and when
`exec_start` is set it becomes exactly
`min(min_vruntime, updated vruntime)`). -/
theorem c9_min_vruntime_floor_lowered (now tid cpu : Nat) (s : SchedState)
    (ht : tid < s.tasks.length) (hc : cpu < s.rqs.length) :
    (getRq (update_curr_advanced now tid cpu s) cpu).min_vruntime ≤
      (getRq s cpu).min_vruntime ∧
    ((getTask s tid).exec_start ≠ 0 →
      (getRq (update_curr_advanced now tid cpu s) cpu).min_vruntime =
        min ((getRq s cpu).min_vruntime)
          ((getTask (update_curr_advanced now tid cpu s) tid).vruntime)) := by
  by_cases h0 : (getTask s tid).exec_start = 0
  · constructor
    · simp [update_curr_advanced, h0]
    · intro hne; exact absurd h0 hne
  · have hu : update_curr_advanced now tid cpu s =
        (let s1 := setTask
          (setGroups s (update_group_runtime (sub64 now (getTask s tid).exec_start)
            (getTask s tid).groupChain s.groups)) tid (account_task now (getTask s tid))
         if (account_task now (getTask s tid)).vruntime < (getRq s cpu).min_vruntime then
           setRq s1 cpu { getRq s cpu with
                          min_vruntime := (account_task now (getTask s tid)).vruntime }
         else s1) := by
      simp [update_curr_advanced, h0]
    rw [hu]
    by_cases h1 : (account_task now (getTask s tid)).vruntime < (getRq s cpu).min_vruntime
    · simp only [h1, if_true, if_pos]
      rw [getRq_setRq_self _ _ _ (by simpa [setTask, setGroups, length_lset] using hc)]
      constructor
      · exact Nat.le_of_lt h1
      · intro _
        rw [getTask_setRq, getTask_setTask_self _ _ _ (by simpa using ht)]
        exact (Nat.min_eq_right (Nat.le_of_lt h1)).symm
    · simp only [h1, if_false, if_neg, not_false_iff]
      rw [getRq_setTask, getRq_setGroups]
      constructor
      · exact Nat.le_refl _
      · intro _
        rw [getTask_setTask_self _ _ _ (by simpa using ht)]
        exact (Nat.min_eq_left (Nat.le_of_not_lt h1)).symm

/-- C9 witness: the amended statement evaluated on `c9_state` at
`now = 6`. -/
theorem c9_min_vruntime_floor_lowered_witness :
    0 < c9_state.tasks.length ∧ 0 < c9_state.rqs.length ∧
    ((getRq (update_curr_advanced 6 0 0 c9_state) 0).min_vruntime ≤
       (getRq c9_state 0).min_vruntime ∧
     ((getTask c9_state 0).exec_start ≠ 0 →
       (getRq (update_curr_advanced 6 0 0 c9_state) 0).min_vruntime =
         min ((getRq c9_state 0).min_vruntime)
           ((getTask (update_curr_advanced 6 0 0 c9_state) 0).vruntime))) :=
  ⟨by decide, by decide, c9_min_vruntime_floor_lowered 6 0 0 c9_state (by decide) (by decide)⟩

/-! ## C10 -/

theorem rqs_length_update_curr (now tid cpu : Nat) (s : SchedState) :
    (update_curr_advanced now tid cpu s).rqs.length = s.rqs.length := by
  simp only [update_curr_advanced]
  split
  · rfl
  · split
    · simp [setRq, length_lset]
    · simp

theorem rqs_length_load_balance (s : SchedState) :
    (load_balance s).rqs.length = s.rqs.length := by
  simp only [load_balance]
  split
  · rfl
  · split
    · rfl
    · simp [setRq, setTask, length_lset]

theorem rqs_should_preempt (now : Nat) (c : Option Nat) (nid : Nat) (s : SchedState) :
    ((should_preempt now c nid s).2).rqs = s.rqs := by
  unfold should_preempt
  cases c with
  | none => rfl
  | some c =>
    by_cases h1 : (check_group_runtime now (getTask s c).groupChain s.groups).1 = true <;>
      simp only [h1, if_true, if_false, Bool.false_eq_true] <;>
      split_ifs <;> rfl

theorem rqs_length_sched_requeue (cpu now : Nat) (s : SchedState) :
    (sched_requeue_prev cpu now s).rqs.length = s.rqs.length := by
  simp only [sched_requeue_prev]
  split
  · rfl
  · next p _ =>
    split
    · simp [setRq, length_lset, rqs_length_update_curr]
    · exact rqs_length_update_curr _ _ _ _

theorem rqs_length_sched_pick (cpu : Nat) (s : SchedState) :
    ((sched_pick_next cpu s).1).rqs.length = s.rqs.length := by
  simp only [sched_pick_next]
  split
  · exact rqs_length_load_balance _
  · rfl

theorem getRq_sched_dispatch (cpu now n : Nat) (s : SchedState)
    (hc : cpu < s.rqs.length) :
    getRq (sched_dispatch cpu now n s) cpu =
      { getRq s cpu with
        tasks_timeline := (getRq s cpu).tasks_timeline.erase n,
        curr := some n,
        nr_running :=
          if (getRq s cpu).tasks_timeline.erase n = [] then 0 else 1 } := by
  unfold sched_dispatch
  simp only [getTask_setRq, getRq_setTask]
  rw [getRq_setRq_self _ _ _ (by simpa [setTask, setRq, length_lset] using hc),
      getRq_setRq_self _ _ _ hc]

/-- C10: whenever `schedule` dispatches a task, it rewrites the queue's
`nr_running` to 1 if the ordered index is still non-empty and 0 if it is
empty — not to the number of Ready tasks actually left — so the derived
load `calc_cpu_load = nr_running * NICE_TO_WEIGHT(0)` right after any
dispatch is at most one `BASE_WEIGHT`. -/
theorem c10_nr_running_after_dispatch (cpu now : Nat) (s : SchedState) (n : Nat)
    (hc : cpu < s.rqs.length)
    (hd : (scheduleD cpu now s).2 = some n) :
    (getRq (schedule cpu now s) cpu).nr_running =
      (if (getRq (schedule cpu now s) cpu).tasks_timeline = [] then 0 else 1) ∧
    calc_cpu_load (getRq (schedule cpu now s) cpu) ≤ BASE_WEIGHT := by
  unfold schedule
  rcases hp : (sched_pick_next cpu (sched_requeue_prev cpu now s)).2 with _ | m
  · simp only [scheduleD, hp] at hd
    exact absurd hd (by simp)
  · simp only [scheduleD, hp] at hd ⊢
    by_cases hpr : (should_preempt now (getRq s cpu).curr m
        (sched_pick_next cpu (sched_requeue_prev cpu now s)).1).1 = true
    · rw [if_pos hpr] at hd ⊢
      have hmn : m = n := by simpa using hd
      subst hmn
      have hc' : cpu < ((should_preempt now (getRq s cpu).curr m
          (sched_pick_next cpu (sched_requeue_prev cpu now s)).1).2).rqs.length := by
        rw [rqs_should_preempt]
        calc cpu < s.rqs.length := hc
          _ = ((sched_pick_next cpu (sched_requeue_prev cpu now s)).1).rqs.length := by
            rw [rqs_length_sched_pick, rqs_length_sched_requeue]
      rw [getRq_sched_dispatch _ _ _ _ hc']
      constructor
      · rfl
      · simp only [calc_cpu_load]
        split_ifs <;> decide
    · rw [if_neg hpr] at hd
      simp at hd

/-- Four Ready entities on one core, none running: the next `schedule`
call dispatches the leftmost and leaves three Ready entities queued. -/
def c10_state : SchedState :=
  { tasks :=
      [c2_entity 1 1024, c2_entity 2 335, c2_entity 3 20, c2_entity 4 20],
    groups := [c2_group],
    rqs := [{ tasks_timeline := [0, 1, 2, 3], nr_running := 4, cpu_load := 0,
              cpu := 0, curr := none, min_vruntime := 0,
              capacity := MAX_CPU_CAPACITY }] }

/-- C10 witness: on `c10_state` the first invocation dispatches task 0;
three Ready entities remain in the index, yet `nr_running` is 1 and the
derived load is one `BASE_WEIGHT`. -/
theorem c10_nr_running_after_dispatch_witness :
    0 < c10_state.rqs.length ∧ (scheduleD 0 1000000 c10_state).2 = some 0 ∧
    (getRq (schedule 0 1000000 c10_state) 0).tasks_timeline = [1, 2, 3] ∧
    ((getRq (schedule 0 1000000 c10_state) 0).nr_running =
       (if (getRq (schedule 0 1000000 c10_state) 0).tasks_timeline = [] then 0 else 1) ∧
     calc_cpu_load (getRq (schedule 0 1000000 c10_state) 0) ≤ BASE_WEIGHT) :=
  ⟨by decide, by decide, by decide,
   c10_nr_running_after_dispatch 0 1000000 c10_state 0 (by decide) (by decide)⟩

/-! ## C6 -/

/-- C6: the preemption gate returns true exactly when (a) there is no
current task; or (b) the current task's group-budget walk reports no
budget while the candidate's walk — run on the state the first walk left
behind — reports budget; or (c) the candidate's vruntime plus
`FAIR_LATENCY` is still below the current task's vruntime; or (d) both
tasks carry nonzero bandwidth deadlines and the candidate's deadline is
earlier.  In all other cases it returns false. -/
theorem c6_should_preempt_iff (now nid : Nat) (curr : Option Nat) (s : SchedState) :
    (should_preempt now curr nid s).1 = true ↔
      curr = none ∨
      ∃ c, curr = some c ∧
        (((check_group_runtime now (getTask s c).groupChain s.groups).1 = false ∧
          (check_group_runtime now (getTask s nid).groupChain
            (check_group_runtime now (getTask s c).groupChain s.groups).2).1 = true) ∨
         wrap ((getTask s nid).vruntime + FAIR_LATENCY) < (getTask s c).vruntime ∨
         ((getTask s nid).deadline ≠ 0 ∧ (getTask s c).deadline ≠ 0 ∧
          (getTask s nid).deadline < (getTask s c).deadline)) := by
  cases curr with
  | none => simp [should_preempt]
  | some c =>
    simp only [should_preempt]
    by_cases h1 : (check_group_runtime now (getTask s c).groupChain s.groups).1 = true
    · have h1' : ¬ ((check_group_runtime now (getTask s c).groupChain s.groups).1 = false) := by
        simp [h1]
      simp only [h1, if_true]
      by_cases h2 : wrap ((getTask s nid).vruntime + FAIR_LATENCY) < (getTask s c).vruntime
      · simp [h2]
      · by_cases h3 : (getTask s nid).deadline ≠ 0 ∧ (getTask s c).deadline ≠ 0 ∧
            (getTask s nid).deadline < (getTask s c).deadline
        · simp [h2, h3]
        · simp [h1', h2, h3]
    · have h1' : (check_group_runtime now (getTask s c).groupChain s.groups).1 = false := by
        simpa using h1
      simp only [h1, if_false]
      by_cases h4 : (check_group_runtime now (getTask s nid).groupChain
          (check_group_runtime now (getTask s c).groupChain s.groups).2).1 = true
      · simp [h1', h4]
      · have h4' : (check_group_runtime now (getTask s nid).groupChain
            (check_group_runtime now (getTask s c).groupChain s.groups).2).1 = false := by
          simpa using h4
        by_cases h2 : wrap ((getTask s nid).vruntime + FAIR_LATENCY) < (getTask s c).vruntime
        · simp [h4', h2]
        · by_cases h3 : (getTask s nid).deadline ≠ 0 ∧ (getTask s c).deadline ≠ 0 ∧
              (getTask s nid).deadline < (getTask s c).deadline
          · simp [h4', h2, h3]
          · simp [h4', h2, h3]

/-! ## C3 -/

theorem wrap_eq_of_lt {a : Nat} (h : a < U64) : wrap a = a := Nat.mod_eq_of_lt h

theorem length_update_group_runtime (delta : Nat) (ch : List Nat)
    (gs : List TaskGroup) :
    (update_group_runtime delta ch gs).length = gs.length := by
  induction ch generalizing gs with
  | nil => rfl
  | cons i rest ih => simp [update_group_runtime, ih, length_lset]

theorem getGroup_update_group_runtime_not_mem (delta : Nat) (ch : List Nat)
    (gs : List TaskGroup) (g : Nat) (hg : g ∉ ch) :
    getGroup (update_group_runtime delta ch gs) g = getGroup gs g := by
  induction ch generalizing gs with
  | nil => rfl
  | cons i rest ih =>
    have hgi : i ≠ g := fun h => hg (h ▸ List.mem_cons_self i rest)
    have hgr : g ∉ rest := fun h => hg (List.mem_cons_of_mem i h)
    simp only [update_group_runtime]
    rw [ih _ hgr]
    exact lget_lset_ne _ _ _ _ hgi

theorem getGroup_update_group_runtime_mem (delta : Nat) (ch : List Nat)
    (gs : List TaskGroup) (g : Nat) (hnd : ch.Nodup) (hmem : g ∈ ch)
    (hlen : g < gs.length) :
    getGroup (update_group_runtime delta ch gs) g =
      { getGroup gs g with
        runtime := wrap ((getGroup gs g).runtime + delta),
        vruntime := wrap ((getGroup gs g).vruntime + delta) } := by
  induction ch generalizing gs with
  | nil => cases hmem
  | cons i rest ih =>
    rcases List.mem_cons.mp hmem with hgi | hgr
    · subst hgi
      have hnr : g ∉ rest := (List.nodup_cons.mp hnd).1
      simp only [update_group_runtime]
      rw [getGroup_update_group_runtime_not_mem _ _ _ _ hnr]
      exact lget_lset_eq _ _ _ hlen
    · have hgi : g ≠ i := fun h =>
        ((List.nodup_cons.mp hnd).1 (h ▸ hgr)).elim
      simp only [update_group_runtime]
      rw [ih _ (List.nodup_cons.mp hnd).2 hgr (by rw [length_lset]; exact hlen)]
      rw [show getGroup (lset gs i _) g = getGroup gs g from
            lget_lset_ne _ _ _ _ (fun h => hgi h.symm)]

theorem account_task_fields (now : Nat) (t : CTask) :
    (account_task now t).sum_exec_runtime =
        wrap (t.sum_exec_runtime + sub64 now t.exec_start) ∧
    (account_task now t).vruntime =
        wrap (t.vruntime + wrap (sub64 now t.exec_start * BASE_WEIGHT) / t.weight) ∧
    (t.runtime_left ≤ sub64 now t.exec_start →
      (account_task now t).runtime_left = 0 ∧
      (account_task now t).deadline = wrap (now + BANDWIDTH_PERIOD)) ∧
    (sub64 now t.exec_start < t.runtime_left →
      (account_task now t).runtime_left = t.runtime_left - sub64 now t.exec_start ∧
      (account_task now t).deadline = t.deadline) := by
  simp only [account_task]
  split_ifs with h
  · exact ⟨rfl, rfl, fun _ => ⟨rfl, rfl⟩, fun h2 => absurd h (by omega)⟩
  · exact ⟨rfl, rfl, fun h2 => absurd h2 (by omega), fun _ => ⟨rfl, rfl⟩⟩

theorem groups_update_curr (now tid cpu : Nat) (s : SchedState)
    (h0 : (getTask s tid).exec_start ≠ 0) :
    (update_curr_advanced now tid cpu s).groups =
      update_group_runtime (sub64 now (getTask s tid).exec_start)
        (getTask s tid).groupChain s.groups := by
  simp only [update_curr_advanced]
  rw [if_neg h0]
  split <;> simp

theorem getTask_update_curr (now tid cpu : Nat) (s : SchedState)
    (h0 : (getTask s tid).exec_start ≠ 0) (ht : tid < s.tasks.length) :
    getTask (update_curr_advanced now tid cpu s) tid =
      account_task now (getTask s tid) := by
  simp only [update_curr_advanced]
  rw [if_neg h0]
  split
  · rw [getTask_setRq, getTask_setTask_self _ _ _ (by simpa using ht)]
  · rw [getTask_setTask_self _ _ _ (by simpa using ht)]

/-- C3: the accounting operation `update_curr_advanced` is a no-op when
the entity has no recorded `exec_start`; otherwise, with
`delta = now - exec_start`, it adds `delta` to `sum_exec_runtime` and to
every ancestor group's bandwidth `runtime` and group vruntime, zeroes
`runtime_left` and rearms `deadline = now + BANDWIDTH_PERIOD` when
`runtime_left <= delta` (else just subtracts `delta`), and advances the
entity's vruntime by `delta * BASE_WEIGHT / weight` in integer
arithmetic.  The no-overflow side conditions make the mod-2^64 wraps of
the C arithmetic vanish. -/
theorem c3_account_running_effects (now tid cpu : Nat) (s : SchedState)
    (ht : tid < s.tasks.length)
    (hnd : (getTask s tid).groupChain.Nodup)
    (hgl : ∀ g ∈ (getTask s tid).groupChain, g < s.groups.length)
    (hb1 : (getTask s tid).sum_exec_runtime + sub64 now (getTask s tid).exec_start < U64)
    (hb2 : ∀ g ∈ (getTask s tid).groupChain,
      (getGroup s.groups g).runtime + sub64 now (getTask s tid).exec_start < U64 ∧
      (getGroup s.groups g).vruntime + sub64 now (getTask s tid).exec_start < U64)
    (hb3 : sub64 now (getTask s tid).exec_start * BASE_WEIGHT < U64)
    (hb4 : (getTask s tid).vruntime +
      sub64 now (getTask s tid).exec_start * BASE_WEIGHT / (getTask s tid).weight < U64)
    (hb5 : now + BANDWIDTH_PERIOD < U64) :
    ((getTask s tid).exec_start = 0 → update_curr_advanced now tid cpu s = s) ∧
    ((getTask s tid).exec_start ≠ 0 →
      (getTask (update_curr_advanced now tid cpu s) tid).sum_exec_runtime =
          (getTask s tid).sum_exec_runtime + sub64 now (getTask s tid).exec_start ∧
      (∀ g ∈ (getTask s tid).groupChain,
        (getGroup (update_curr_advanced now tid cpu s).groups g).runtime =
            (getGroup s.groups g).runtime + sub64 now (getTask s tid).exec_start ∧
        (getGroup (update_curr_advanced now tid cpu s).groups g).vruntime =
            (getGroup s.groups g).vruntime + sub64 now (getTask s tid).exec_start) ∧
      ((getTask s tid).runtime_left ≤ sub64 now (getTask s tid).exec_start →
        (getTask (update_curr_advanced now tid cpu s) tid).runtime_left = 0 ∧
        (getTask (update_curr_advanced now tid cpu s) tid).deadline =
          now + BANDWIDTH_PERIOD) ∧
      (sub64 now (getTask s tid).exec_start < (getTask s tid).runtime_left →
        (getTask (update_curr_advanced now tid cpu s) tid).runtime_left =
          (getTask s tid).runtime_left - sub64 now (getTask s tid).exec_start ∧
        (getTask (update_curr_advanced now tid cpu s) tid).deadline =
          (getTask s tid).deadline) ∧
      (getTask (update_curr_advanced now tid cpu s) tid).vruntime =
          (getTask s tid).vruntime +
            sub64 now (getTask s tid).exec_start * BASE_WEIGHT / (getTask s tid).weight) := by
  constructor
  · intro h0
    simp [update_curr_advanced, h0]
  · intro h0
    have hacc := account_task_fields now (getTask s tid)
    rw [getTask_update_curr now tid cpu s h0 ht, groups_update_curr now tid cpu s h0]
    refine ⟨?_, ?_, ?_, ?_, ?_⟩
    · rw [hacc.1, wrap_eq_of_lt hb1]
    · intro g hg
      rw [getGroup_update_group_runtime_mem _ _ _ _ hnd hg (hgl g hg)]
      exact ⟨wrap_eq_of_lt (hb2 g hg).1, wrap_eq_of_lt (hb2 g hg).2⟩
    · intro hle
      rcases hacc.2.2.1 hle with ⟨hr, hdl⟩
      exact ⟨hr, by rw [hdl, wrap_eq_of_lt hb5]⟩
    · intro hlt
      exact hacc.2.2.2 hlt
    · rw [hacc.2.1, wrap_eq_of_lt hb3, wrap_eq_of_lt hb4]

/-- C3 witness: the accounting effects evaluated on the concrete state
`c9_state` at `now = 6` (`delta = 1`, ample `runtime_left`, one ancestor
group). -/
theorem c3_account_running_effects_witness :
    (0 < c9_state.tasks.length ∧ (getTask c9_state 0).groupChain.Nodup ∧
     (getTask c9_state 0).exec_start ≠ 0) ∧
    ((getTask c9_state 0).exec_start = 0 → update_curr_advanced 6 0 0 c9_state = c9_state) ∧
    ((getTask c9_state 0).exec_start ≠ 0 →
      (getTask (update_curr_advanced 6 0 0 c9_state) 0).sum_exec_runtime =
          (getTask c9_state 0).sum_exec_runtime + sub64 6 (getTask c9_state 0).exec_start ∧
      (∀ g ∈ (getTask c9_state 0).groupChain,
        (getGroup (update_curr_advanced 6 0 0 c9_state).groups g).runtime =
            (getGroup c9_state.groups g).runtime + sub64 6 (getTask c9_state 0).exec_start ∧
        (getGroup (update_curr_advanced 6 0 0 c9_state).groups g).vruntime =
            (getGroup c9_state.groups g).vruntime + sub64 6 (getTask c9_state 0).exec_start) ∧
      ((getTask c9_state 0).runtime_left ≤ sub64 6 (getTask c9_state 0).exec_start →
        (getTask (update_curr_advanced 6 0 0 c9_state) 0).runtime_left = 0 ∧
        (getTask (update_curr_advanced 6 0 0 c9_state) 0).deadline = 6 + BANDWIDTH_PERIOD) ∧
      (sub64 6 (getTask c9_state 0).exec_start < (getTask c9_state 0).runtime_left →
        (getTask (update_curr_advanced 6 0 0 c9_state) 0).runtime_left =
          (getTask c9_state 0).runtime_left - sub64 6 (getTask c9_state 0).exec_start ∧
        (getTask (update_curr_advanced 6 0 0 c9_state) 0).deadline =
          (getTask c9_state 0).deadline) ∧
      (getTask (update_curr_advanced 6 0 0 c9_state) 0).vruntime =
          (getTask c9_state 0).vruntime +
            sub64 6 (getTask c9_state 0).exec_start * BASE_WEIGHT /
              (getTask c9_state 0).weight) :=
  ⟨by decide,
   c3_account_running_effects 6 0 0 c9_state (by decide) (by decide)
     (by decide) (by decide) (by decide) (by decide) (by decide) (by decide)⟩

/-! ## C7 -/

theorem sub64_eq_of_le {a b : Nat} (hba : b ≤ a) (ha : a < U64) :
    sub64 a b = a - b := by
  unfold sub64
  rw [Nat.mod_eq_of_lt (Nat.lt_of_le_of_lt hba ha)]
  have h1 : a + U64 - b = (a - b) + U64 := by omega
  rw [h1, Nat.add_mod_right]
  exact Nat.mod_eq_of_lt (by omega)

theorem busy_acc_le (s : SchedState) (l : List Nat) :
    ∀ acc : Nat × Nat, acc.2 ≤ (l.foldl (busiestStep s) acc).2 := by
  induction l with
  | nil => intro acc; exact Nat.le_refl _
  | cons c rest ih =>
    intro acc
    simp only [List.foldl_cons]
    refine Nat.le_trans ?_ (ih (busiestStep s acc c))
    simp only [busiestStep]
    split
    · next h => exact Nat.le_of_lt h
    · exact Nat.le_refl _

theorem busy_bound (s : SchedState) (l : List Nat) :
    ∀ acc : Nat × Nat, ∀ c ∈ l,
      calc_cpu_load (getRq s c) ≤ (l.foldl (busiestStep s) acc).2 := by
  induction l with
  | nil => intro acc c hc; cases hc
  | cons d rest ih =>
    intro acc c hc
    simp only [List.foldl_cons]
    rcases List.mem_cons.mp hc with h | h
    · subst h
      refine Nat.le_trans ?_ (busy_acc_le s rest (busiestStep s acc c))
      simp only [busiestStep]
      split
      · exact Nat.le_refl _
      · next h2 => exact Nat.le_of_not_lt h2
    · exact ih (busiestStep s acc d) c h

theorem busy_attained (s : SchedState) (l : List Nat) :
    ∀ acc : Nat × Nat, l.foldl (busiestStep s) acc = acc ∨
      ((l.foldl (busiestStep s) acc).1 ∈ l ∧
       (l.foldl (busiestStep s) acc).2 =
         calc_cpu_load (getRq s (l.foldl (busiestStep s) acc).1)) := by
  induction l with
  | nil => intro acc; exact Or.inl rfl
  | cons d rest ih =>
    intro acc
    simp only [List.foldl_cons]
    rcases ih (busiestStep s acc d) with h | h
    · rw [h]
      simp only [busiestStep]
      split
      · exact Or.inr ⟨List.mem_cons_self _ _, rfl⟩
      · exact Or.inl rfl
    · exact Or.inr ⟨List.mem_cons_of_mem _ h.1, h.2⟩

theorem idle_acc_ge (s : SchedState) (l : List Nat) :
    ∀ acc : Nat × Nat, (l.foldl (idlestStep s) acc).2 ≤ acc.2 := by
  induction l with
  | nil => intro acc; exact Nat.le_refl _
  | cons c rest ih =>
    intro acc
    simp only [List.foldl_cons]
    refine Nat.le_trans (ih (idlestStep s acc c)) ?_
    simp only [idlestStep]
    split
    · next h => exact Nat.le_of_lt h
    · exact Nat.le_refl _

theorem idle_bound (s : SchedState) (l : List Nat) :
    ∀ acc : Nat × Nat, ∀ c ∈ l,
      (l.foldl (idlestStep s) acc).2 ≤ calc_cpu_load (getRq s c) := by
  induction l with
  | nil => intro acc c hc; cases hc
  | cons d rest ih =>
    intro acc c hc
    simp only [List.foldl_cons]
    rcases List.mem_cons.mp hc with h | h
    · subst h
      refine Nat.le_trans (idle_acc_ge s rest (idlestStep s acc c)) ?_
      simp only [idlestStep]
      split
      · exact Nat.le_refl _
      · next h2 => exact Nat.le_of_not_lt h2
    · exact ih (idlestStep s acc d) c h

theorem idle_attained (s : SchedState) (l : List Nat) :
    ∀ acc : Nat × Nat, l.foldl (idlestStep s) acc = acc ∨
      ((l.foldl (idlestStep s) acc).1 ∈ l ∧
       (l.foldl (idlestStep s) acc).2 =
         calc_cpu_load (getRq s (l.foldl (idlestStep s) acc).1)) := by
  induction l with
  | nil => intro acc; exact Or.inl rfl
  | cons d rest ih =>
    intro acc
    simp only [List.foldl_cons]
    rcases ih (idlestStep s acc d) with h | h
    · rw [h]
      simp only [idlestStep]
      split
      · exact Or.inr ⟨List.mem_cons_self _ _, rfl⟩
      · exact Or.inl rfl
    · exact Or.inr ⟨List.mem_cons_of_mem _ h.1, h.2⟩

theorem busy_fold_zero (s : SchedState) :
    ∀ l : List Nat, (∀ c ∈ l, calc_cpu_load (getRq s c) = 0) →
      ∀ x : Nat, l.foldl (busiestStep s) (x, 0) = (x, 0) := by
  intro l
  induction l with
  | nil => intro _ _; rfl
  | cons d rest ih =>
    intro h x
    simp only [List.foldl_cons, busiestStep]
    rw [h d (List.mem_cons_self d rest)]
    simp only [Nat.lt_irrefl, if_false]
    exact ih (fun c hc => h c (List.mem_cons_of_mem d hc)) x

theorem idle_fold_zero (s : SchedState) :
    ∀ l : List Nat, (∀ c ∈ l, calc_cpu_load (getRq s c) = 0) →
      ∀ x : Nat, l.foldl (idlestStep s) (x, 0) = (x, 0) := by
  intro l
  induction l with
  | nil => intro _ _; rfl
  | cons d rest ih =>
    intro h x
    simp only [List.foldl_cons, idlestStep]
    rw [h d (List.mem_cons_self d rest)]
    simp only [Nat.lt_irrefl, if_false]
    exact ih (fun c hc => h c (List.mem_cons_of_mem d hc)) x

theorem busiest_idlest_eq_of_all_zero (s : SchedState)
    (h : ∀ c ∈ List.range s.rqs.length, calc_cpu_load (getRq s c) = 0) :
    find_busiest_cpu s = find_idlest_cpu s := by
  unfold find_busiest_cpu find_idlest_cpu
  rw [busy_fold_zero s _ h 0]
  have hmem : ∀ c, c < s.rqs.length → calc_cpu_load (getRq s c) = 0 :=
    fun c hc => h c (List.mem_range.mpr hc)
  cases hn : s.rqs.length with
  | zero => simp
  | succ m =>
    rw [List.range_succ_eq_map]
    simp only [List.foldl_cons, idlestStep]
    rw [hmem 0 (by omega)]
    have hUM : (0 : Nat) < ULONG_MAX := by decide
    simp only [hUM, if_true, if_pos]
    have hzr : ∀ c ∈ List.map Nat.succ (List.range m), calc_cpu_load (getRq s c) = 0 := by
      intro c hc
      rcases List.mem_map.mp hc with ⟨x, hx, rfl⟩
      exact hmem _ (by have := List.mem_range.mp hx; omega)
    rw [idle_fold_zero s _ hzr 0]

theorem find_busiest_lt (s : SchedState) (h : 0 < s.rqs.length) :
    find_busiest_cpu s < s.rqs.length := by
  unfold find_busiest_cpu
  rcases busy_attained s (List.range s.rqs.length) (0, 0) with h1 | h1
  · rw [h1]; exact h
  · exact List.mem_range.mp h1.1

theorem find_idlest_lt (s : SchedState) (h : 0 < s.rqs.length) :
    find_idlest_cpu s < s.rqs.length := by
  unfold find_idlest_cpu
  rcases idle_attained s (List.range s.rqs.length) (0, ULONG_MAX) with h1 | h1
  · rw [h1]; exact h
  · exact List.mem_range.mp h1.1

theorem rqs_length_pos_of_ne (s : SchedState)
    (hne : find_busiest_cpu s ≠ find_idlest_cpu s) : 0 < s.rqs.length := by
  by_contra h
  have h0 : s.rqs.length = 0 := Nat.eq_zero_of_not_pos h
  apply hne
  unfold find_busiest_cpu find_idlest_cpu
  rw [h0]
  rfl

theorem busiest_load_pos_of_ne (s : SchedState)
    (hne : find_busiest_cpu s ≠ find_idlest_cpu s) :
    0 < calc_cpu_load (getRq s (find_busiest_cpu s)) := by
  by_contra h
  have hload0 : calc_cpu_load (getRq s (find_busiest_cpu s)) = 0 :=
    Nat.eq_zero_of_not_pos h
  have hf2 : ((List.range s.rqs.length).foldl (busiestStep s) (0, 0)).2 = 0 := by
    rcases busy_attained s (List.range s.rqs.length) (0, 0) with h1 | h1
    · rw [h1]
    · rw [h1.2]; exact hload0
  have hall : ∀ c ∈ List.range s.rqs.length, calc_cpu_load (getRq s c) = 0 :=
    fun c hc => Nat.le_zero.mp (hf2 ▸ busy_bound s _ (0, 0) c hc)
  exact hne (busiest_idlest_eq_of_all_zero s hall)

/-- A state whose idlest core already holds a Ready entity: core 0 has
three Ready entities (ids 0, 1, 2), core 1 has one (id 3). -/
def c7_fail_state : SchedState :=
  { tasks :=
      [{ c2_entity 1 1024 with vruntime := 10 },
       { c2_entity 2 1024 with vruntime := 20 },
       { c2_entity 3 1024 with vruntime := 30 },
       { c2_entity 4 1024 with vruntime := 40, cpu := 1 }],
    groups := [c2_group],
    rqs :=
      [{ tasks_timeline := [0, 1, 2], nr_running := 3, cpu_load := 0,
         cpu := 0, curr := none, min_vruntime := 0,
         capacity := MAX_CPU_CAPACITY },
       { tasks_timeline := [3], nr_running := 1, cpu_load := 0, cpu := 1,
         curr := none, min_vruntime := 0, capacity := MAX_CPU_CAPACITY }] }

/-- C7: `load_balance` does not move exactly one entity into the idlest
core's index.  On `c7_fail_state` core 0 is busiest (load 60) and core 1
idlest (load 20); the call takes the leftmost entity (id 0) out of
core 0's index and then executes `rb_link_node(&task->node, NULL,
&idlest->tasks_timeline.rb_node)`, which overwrites core 1's tree root:
afterwards core 1's index is just `[0]` — its previous member, entity 3,
is in no core's index at all — while its `nr_running` counter was still
incremented to 2.  The busiest-side bookkeeping (index `[1, 2]`,
counter 2) happens as the claim describes. -/
theorem c7_load_balance_discards_destination :
    find_busiest_cpu c7_fail_state = 0 ∧ find_idlest_cpu c7_fail_state = 1 ∧
    (getRq (load_balance c7_fail_state) 0).tasks_timeline = [1, 2] ∧
    (getRq (load_balance c7_fail_state) 0).nr_running = 2 ∧
    (getRq (load_balance c7_fail_state) 1).tasks_timeline = [0] ∧
    (getRq (load_balance c7_fail_state) 1).nr_running = 2 ∧
    ¬ (3 ∈ (getRq (load_balance c7_fail_state) 0).tasks_timeline) ∧
    ¬ (3 ∈ (getRq (load_balance c7_fail_state) 1).tasks_timeline) ∧
    (getTask c7_fail_state 3).state = TASK_READY := by
  decide

/-! ## C2 -/

theorem account_task_preserves (now : Nat) (t : CTask) :
    (account_task now t).state = t.state ∧
    (account_task now t).groupChain = t.groupChain ∧
    (account_task now t).weight = t.weight ∧
    (account_task now t).exec_start = t.exec_start := by
  simp only [account_task]
  split_ifs <;> exact ⟨rfl, rfl, rfl, rfl⟩

theorem length_check_group_runtime (now : Nat) (ch : List Nat)
    (gs : List TaskGroup) :
    (check_group_runtime now ch gs).2.length = gs.length := by
  induction ch generalizing gs with
  | nil => rfl
  | cons g rest ih =>
    simp only [check_group_runtime]
    by_cases hr : sub64 now (getGroup gs g).runtime ≥ (getGroup gs g).period
    · rw [if_pos hr]
      split
      · exact length_lset _ _ _
      · rw [ih, length_lset]
    · rw [if_neg hr]
      split
      · exact length_lset _ _ _
      · rw [ih, length_lset]

theorem getGroup_lset_self (gs : List TaskGroup) (g : Nat) (a : TaskGroup)
    (h : g < gs.length) : getGroup (lset gs g a) g = a :=
  lget_lset_eq _ _ _ h

theorem setGroups_setGroups (s : SchedState) (a b : List TaskGroup) :
    setGroups (setGroups s a) b = setGroups s b := rfl

theorem check_self_singleton (now g : Nat) (gs : List TaskGroup)
    (hg : g < gs.length)
    (h : (check_group_runtime now [g] gs).1 = false) :
    (check_group_runtime now [g] (check_group_runtime now [g] gs).2).1 = false := by
  by_cases hr : sub64 now (getGroup gs g).runtime ≥ (getGroup gs g).period
  · -- the first walk reset the period, so reporting no budget forces quota = 0
    have hq : (0 : Nat) ≥ (getGroup gs g).quota := by
      by_contra hq
      simp only [check_group_runtime] at h
      rw [if_pos hr] at h
      simp [hq] at h
    have h2 : (check_group_runtime now [g] gs).2 =
        lset gs g { getGroup gs g with runtime := 0 } := by
      simp only [check_group_runtime]
      rw [if_pos hr,
        if_pos (show ({ getGroup gs g with runtime := 0 } : TaskGroup).runtime ≥
          ({ getGroup gs g with runtime := 0 } : TaskGroup).quota by simpa using hq)]
    rw [h2]
    simp only [check_group_runtime]
    rw [getGroup_lset_self _ _ _ hg]
    by_cases hr2 : sub64 now ({ getGroup gs g with runtime := 0 } : TaskGroup).runtime ≥
        ({ getGroup gs g with runtime := 0 } : TaskGroup).period
    · rw [if_pos hr2]
      simp [hq]
    · rw [if_neg hr2]
      simp [hq]
  · -- no reset: the second walk sees the same runtime and quota again
    have hq : (getGroup gs g).runtime ≥ (getGroup gs g).quota := by
      by_contra hq
      simp only [check_group_runtime] at h
      rw [if_neg hr] at h
      simp [hq] at h
    have h2 : (check_group_runtime now [g] gs).2 = lset gs g (getGroup gs g) := by
      simp only [check_group_runtime]
      rw [if_neg hr, if_pos hq]
    rw [h2]
    simp only [check_group_runtime]
    rw [getGroup_lset_self _ _ _ hg]
    rw [if_neg hr, if_pos hq]

theorem should_preempt_self (now c : Nat) (s : SchedState) (g : Nat)
    (hch : (getTask s c).groupChain = [g]) (hg : g < s.groups.length)
    (hvr : (getTask s c).vruntime + FAIR_LATENCY < U64) :
    (should_preempt now (some c) c s).1 = false ∧
    ∃ gs2 : List TaskGroup, gs2.length = s.groups.length ∧
      (should_preempt now (some c) c s).2 = setGroups s gs2 := by
  have hcvr : ¬ (wrap ((getTask s c).vruntime + FAIR_LATENCY) < (getTask s c).vruntime) := by
    rw [wrap_eq_of_lt hvr]
    exact Nat.not_lt.mpr (Nat.le_add_right _ _)
  have hcdl : ¬ ((getTask s c).deadline ≠ 0 ∧ (getTask s c).deadline ≠ 0 ∧
      (getTask s c).deadline < (getTask s c).deadline) :=
    fun h => absurd h.2.2 (Nat.lt_irrefl _)
  simp only [should_preempt, hch]
  by_cases h1 : (check_group_runtime now [g] s.groups).1 = true
  · rw [if_pos h1]
    rw [if_neg (by simp : ¬ ((false, setGroups s (check_group_runtime now [g] s.groups).2).1 = true))]
    rw [if_neg hcvr, if_neg hcdl]
    exact ⟨rfl, ⟨(check_group_runtime now [g] s.groups).2,
      length_check_group_runtime _ _ _, rfl⟩⟩
  · rw [if_neg h1]
    have h1' : (check_group_runtime now [g] s.groups).1 = false := by
      simpa using h1
    have h2 := check_self_singleton now g s.groups hg h1'
    simp only [groups_setGroups]
    rw [if_neg (by rw [h2]; simp)]
    rw [if_neg hcvr, if_neg hcdl]
    refine ⟨rfl, ⟨(check_group_runtime now [g]
      (check_group_runtime now [g] s.groups).2).2, ?_, ?_⟩⟩
    · rw [length_check_group_runtime, length_check_group_runtime]
    · rw [setGroups_setGroups]

/-- Virtual-runtime budget of the stuck entity after `b` quanta: each
accounting step adds at most `10^10 * 20 / 1024 < 6*10^8` to it. -/
def c2_vr_bound (b : Nat) : Nat := 600000000 * (b + 1)

/-- The configuration the proportional-share run is stuck in from
quantum 2 on: entity 1 (task id 0) is both the core's `curr` and the
sole member of the ordered index — the quantum-2 requeue's
root-overwriting insertion discarded entity 2 from the tree — marked
Ready, with its dispatch stamp frozen at instant `10^6`. -/
def C2Inv (b : Nat) (s : SchedState) : Prop :=
  s.tasks.length = 2 ∧ s.groups.length = 1 ∧ s.rqs.length = 1 ∧
  (getRq s 0).curr = some 0 ∧ (getRq s 0).tasks_timeline = [0] ∧
  (getRq s 0).nr_running = 1 ∧ (getRq s 0).capacity = 1024 ∧
  (getRq s 0).min_vruntime = 0 ∧ (getTask s 0).state = TASK_READY ∧
  (getTask s 0).exec_start = 1000000 ∧ (getTask s 0).groupChain = [0] ∧
  (getTask s 0).weight = 1024 ∧ (getTask s 0).vruntime ≤ c2_vr_bound b

theorem c2_stuck_step (b : Nat) (s : SchedState) (hInv : C2Inv b s)
    (hb2 : b + 1 ≤ 10000) :
    C2Inv (b + 1) (schedule 0 ((b + 1) * MIN_GRANULARITY) s) ∧
    (getRq (schedule 0 ((b + 1) * MIN_GRANULARITY) s) 0).curr = some 0 := by
  obtain ⟨h1, h2, h3, h4, h5, h6, h7, h8, h9, h10, h11, h12, h13⟩ := hInv
  have hMG : MIN_GRANULARITY = 1000000 := rfl
  have hnow1 : 1000000 ≤ (b + 1) * MIN_GRANULARITY := by
    rw [hMG]
    have h11' : 1 ≤ b + 1 := by omega
    calc (1000000 : Nat) = 1 * 1000000 := by norm_num
      _ ≤ (b + 1) * 1000000 := Nat.mul_le_mul_right _ h11'
  have hnow2 : (b + 1) * MIN_GRANULARITY ≤ 10000000000 := by
    rw [hMG]
    calc (b + 1) * 1000000 ≤ 10000 * 1000000 := Nat.mul_le_mul_right _ hb2
      _ = 10000000000 := by norm_num
  have hnowU : (b + 1) * MIN_GRANULARITY < U64 := by
    refine Nat.lt_of_le_of_lt hnow2 ?_
    rw [show U64 = 18446744073709551616 from rfl]
    norm_num
  have hd_eq : sub64 ((b + 1) * MIN_GRANULARITY) 1000000 =
      (b + 1) * MIN_GRANULARITY - 1000000 :=
    sub64_eq_of_le hnow1 hnowU
  have hd_le : sub64 ((b + 1) * MIN_GRANULARITY) 1000000 ≤ 10000000000 := by
    rw [hd_eq]; omega
  have hd20 : sub64 ((b + 1) * MIN_GRANULARITY) 1000000 * BASE_WEIGHT ≤
      200000000000 := by
    rw [show BASE_WEIGHT = 20 from rfl]
    calc sub64 ((b + 1) * MIN_GRANULARITY) 1000000 * 20 ≤ 10000000000 * 20 :=
        Nat.mul_le_mul_right _ hd_le
      _ = 200000000000 := by norm_num
  have hd20U : sub64 ((b + 1) * MIN_GRANULARITY) 1000000 * BASE_WEIGHT < U64 := by
    refine Nat.lt_of_le_of_lt hd20 ?_
    rw [show U64 = 18446744073709551616 from rfl]
    norm_num
  have hdiv : sub64 ((b + 1) * MIN_GRANULARITY) 1000000 * BASE_WEIGHT / 1024 ≤
      600000000 := by
    refine Nat.le_trans (Nat.div_le_div_right hd20) (by norm_num)
  have hb13 : c2_vr_bound b ≤ 6000000000000 := by
    unfold c2_vr_bound
    calc 600000000 * (b + 1) ≤ 600000000 * 10000 := Nat.mul_le_mul_left _ hb2
      _ = 6000000000000 := by norm_num
  -- the accounted task
  have hne0 : ¬ ((getTask s 0).exec_start = 0) := by rw [h10]; norm_num
  have ht1 : (0 : Nat) < s.tasks.length := by rw [h1]; norm_num
  have hvr' : (account_task ((b + 1) * MIN_GRANULARITY) (getTask s 0)).vruntime =
      (getTask s 0).vruntime +
        sub64 ((b + 1) * MIN_GRANULARITY) 1000000 * BASE_WEIGHT / 1024 := by
    have hf := (account_task_fields ((b + 1) * MIN_GRANULARITY) (getTask s 0)).2.1
    rw [hf, h10, h12, wrap_eq_of_lt hd20U, wrap_eq_of_lt]
    rw [show U64 = 18446744073709551616 from rfl]
    have := hd_le
    omega
  have hvr'le : (account_task ((b + 1) * MIN_GRANULARITY) (getTask s 0)).vruntime ≤
      c2_vr_bound (b + 1) := by
    rw [hvr']
    unfold c2_vr_bound at h13 ⊢
    omega
  have hvrL : (account_task ((b + 1) * MIN_GRANULARITY) (getTask s 0)).vruntime +
      FAIR_LATENCY < U64 := by
    refine Nat.lt_of_le_of_lt (Nat.add_le_add hvr'le (Nat.le_refl _)) ?_
    unfold c2_vr_bound
    rw [show U64 = 18446744073709551616 from rfl, show FAIR_LATENCY = 6000000 from rfl]
    have : b + 1 ≤ 10000 := hb2
    omega
  -- phase 1: the accounting call
  have hupd : update_curr_advanced ((b + 1) * MIN_GRANULARITY) 0 0 s =
      setTask (setGroups s (update_group_runtime
          (sub64 ((b + 1) * MIN_GRANULARITY) 1000000) [0] s.groups)) 0
        (account_task ((b + 1) * MIN_GRANULARITY) (getTask s 0)) := by
    simp only [update_curr_advanced]
    rw [if_neg hne0]
    simp only [getRq_setTask, getRq_setGroups, h8, h10, h11]
    rw [if_neg (Nat.not_lt_zero _)]
  have hpt : getTask (update_curr_advanced ((b + 1) * MIN_GRANULARITY) 0 0 s) 0 =
      account_task ((b + 1) * MIN_GRANULARITY) (getTask s 0) :=
    getTask_update_curr _ _ _ _ hne0 ht1
  have hrq1 : getRq (update_curr_advanced ((b + 1) * MIN_GRANULARITY) 0 0 s) 0 =
      getRq s 0 := by
    rw [hupd]; simp
  -- phase 2: requeue is the identity (the task is already Ready)
  have hreq : sched_requeue_prev 0 ((b + 1) * MIN_GRANULARITY) s =
      update_curr_advanced ((b + 1) * MIN_GRANULARITY) 0 0 s := by
    simp only [sched_requeue_prev, h4]
    rw [hpt, (account_task_preserves _ _).1, h9]
    rw [if_neg (by rw [show TASK_READY = 1 from rfl, show TASK_RUNNING = 0 from rfl]; norm_num)]
  -- phase 3: selection picks the head, no load balancing
  have hpick : sched_pick_next 0 (update_curr_advanced ((b + 1) * MIN_GRANULARITY) 0 0 s) =
      (update_curr_advanced ((b + 1) * MIN_GRANULARITY) 0 0 s, some 0) := by
    simp only [sched_pick_next, hrq1, h5, h6, h7]
    rw [if_neg (by decide)]
    rfl
  -- phase 4: the gate compares the task with itself and declines
  have hch' : (getTask (update_curr_advanced ((b + 1) * MIN_GRANULARITY) 0 0 s) 0).groupChain = [0] := by
    rw [hpt, (account_task_preserves _ _).2.1, h11]
  have hg' : (0 : Nat) < (update_curr_advanced ((b + 1) * MIN_GRANULARITY) 0 0 s).groups.length := by
    rw [hupd]
    simp only [groups_setTask, groups_setGroups]
    rw [length_update_group_runtime, h2]
    norm_num
  have hvr'' : (getTask (update_curr_advanced ((b + 1) * MIN_GRANULARITY) 0 0 s) 0).vruntime +
      FAIR_LATENCY < U64 := by
    rw [hpt]; exact hvrL
  obtain ⟨hspf, gs2, hgs2len, hsps⟩ :=
    should_preempt_self ((b + 1) * MIN_GRANULARITY) 0
      (update_curr_advanced ((b + 1) * MIN_GRANULARITY) 0 0 s) 0 hch' hg' hvr''
  -- phase 5: assemble the scheduler invocation
  have hsched : schedule 0 ((b + 1) * MIN_GRANULARITY) s =
      setGroups (update_curr_advanced ((b + 1) * MIN_GRANULARITY) 0 0 s) gs2 := by
    unfold schedule
    simp only [scheduleD, hreq, hpick, h4]
    rw [if_neg (by rw [hspf]; norm_num)]
    exact hsps
  -- conclude: the invariant is preserved and no dispatch happened
  have hgt : getTask (setGroups (update_curr_advanced ((b + 1) * MIN_GRANULARITY) 0 0 s) gs2) 0 =
      account_task ((b + 1) * MIN_GRANULARITY) (getTask s 0) := by
    rw [getTask_setGroups, hpt]
  refine ⟨⟨?_, ?_, ?_, ?_, ?_, ?_, ?_, ?_, ?_, ?_, ?_, ?_, ?_⟩, ?_⟩
  · rw [hsched, tasks_setGroups, hupd]
    simp [setTask, length_lset, h1]
  · rw [hsched, groups_setGroups, hgs2len, hupd]
    simp only [groups_setTask, groups_setGroups]
    rw [length_update_group_runtime, h2]
  · rw [hsched]
    show (update_curr_advanced ((b + 1) * MIN_GRANULARITY) 0 0 s).rqs.length = 1
    rw [rqs_length_update_curr, h3]
  · rw [hsched, getRq_setGroups, hrq1, h4]
  · rw [hsched, getRq_setGroups, hrq1, h5]
  · rw [hsched, getRq_setGroups, hrq1, h6]
  · rw [hsched, getRq_setGroups, hrq1, h7]
  · rw [hsched, getRq_setGroups, hrq1, h8]
  · rw [hsched, hgt, (account_task_preserves _ _).1, h9]
  · rw [hsched, hgt, (account_task_preserves _ _).2.2.2, h10]
  · rw [hsched, hgt, (account_task_preserves _ _).2.1, h11]
  · rw [hsched, hgt, (account_task_preserves _ _).2.2.1, h12]
  · rw [hsched, hgt]
    exact hvr'le
  · rw [hsched, getRq_setGroups, hrq1, h4]

theorem c2_stuck_run (n : Nat) : ∀ (b : Nat) (s : SchedState) (cnt : Nat),
    C2Inv b s → b + n ≤ 10000 →
    (simSteps c2_tick b n (s, cnt)).2 = cnt + n ∧
    C2Inv (b + n) (simSteps c2_tick b n (s, cnt)).1 := by
  induction n with
  | zero => intro b s cnt hInv _; exact ⟨rfl, hInv⟩
  | succ n ih =>
    intro b s cnt hInv hb2
    have hstep := c2_stuck_step b s hInv (by omega)
    have htick : c2_tick (b + 1) (s, cnt) =
        (schedule 0 ((b + 1) * MIN_GRANULARITY) s, cnt + 1) := by
      simp only [c2_tick]
      rw [hstep.2]
      norm_num
    show (simSteps c2_tick (b + 1) n (c2_tick (b + 1) (s, cnt))).2 = cnt + (n + 1) ∧
      C2Inv (b + (n + 1)) (simSteps c2_tick (b + 1) n (c2_tick (b + 1) (s, cnt))).1
    rw [htick]
    have hrest := ih (b + 1) (schedule 0 ((b + 1) * MIN_GRANULARITY) s) (cnt + 1)
      hstep.1 (by omega)
    refine ⟨?_, ?_⟩
    · rw [hrest.1]; omega
    · have h2 := hrest.2
      rwa [show b + 1 + n = b + (n + 1) by omega] at h2

set_option maxRecDepth 40000 in
/-- C2: proportional sharing fails in the opposite extreme.  With
entities of weights 1024 and 335 in one unconstrained group on one core,
driven by one `schedule` call per 1 ms quantum for N = 10000 quanta,
entity 1 receives ALL 10000 quanta — a share of 1.0, outside the claimed
[0.74, 0.76] band around `w1/(w1+w2) ≈ 0.75`.  At quantum 2 the requeue
inserts the running entity 1 with the source's root-overwriting
`rb_link_node(NULL, &root)` idiom, which discards entity 2 from the
ordered index; from then on the gate forever compares entity 1 against
itself and never dispatches anything else. -/
theorem c2_entity1_monopolizes_all_quanta :
    (c2_run 10000).2 = 10000 ∧ 76 * 10000 < (c2_run 10000).2 * 100 := by
  have hbase1 : (c2_run 2).2 = 2 := by decide
  have hbase2 : C2Inv 2 (c2_run 2).1 := by
    unfold C2Inv c2_vr_bound
    decide
  have hrun := c2_stuck_run 9998 2 (c2_run 2).1 (c2_run 2).2 hbase2 (by norm_num)
  have hc : (simSteps c2_tick 2 9998 (c2_run 2)).2 = (c2_run 2).2 + 9998 := hrun.1
  have hsplit : (c2_run 10000).2 = (simSteps c2_tick 2 9998 (c2_run 2)).2 := by
    show (simSteps c2_tick 0 (2 + 9998) (c2_state, 0)).2 = _
    rw [simSteps_append]
    rfl
  have hcount : (c2_run 10000).2 = 10000 := by
    rw [hsplit, hc, hbase1]
  exact ⟨hcount, by rw [hcount]; norm_num⟩
